import Mathlib

/-!
Shallow embedding of the cover-range reconstruction logic of the
`proba2` repository (IIIF newspaper-cover classifier scripts), together
with the per-page batch-analysis loop and the hybrid OCR/CLIP decision.

The authoritative code is `src/app4_koncowe.py` (`save_manifest`,
`run_analysis`), `src/app4.py` (`save_manifest_with_structure`,
`run_analysis`), `src/ocr_and_clip.py` (`analizuj_manifest`) and
`src/laion_grupowanie_zdjec.py` (`analizuj_manifest`).  Every definition
below is translated directly from that source.
-/

namespace Proba2

/-! ### Python primitives used by the source -/

/-- Python slice-bound resolution: a (possibly negative) slice index is
clamped to `[0, n]` the way CPython resolves `l[a:b]` bounds. -/
def pyBound (n : Nat) (i : Int) : Nat :=
  if i < 0 then ((n : Int) + i).toNat else min i.toNat n

/-- Python list slicing `l[a:b]` (step 1), including negative indices. -/
def pySlice {α : Type} (l : List α) (a b : Int) : List α :=
  (l.take (pyBound l.length b)).drop (pyBound l.length a)

/-- Python `s.rstrip('/')`: remove every trailing `'/'`. -/
def pyRstripSlash (s : String) : String :=
  ⟨(s.data.reverse.dropWhile (fun c => c = '/')).reverse⟩

/-- The whitespace set stripped by Python's `str.strip()`. -/
def pyIsSpace (c : Char) : Bool :=
  c = ' ' || c = '\t' || c = '\n' || c = '\r' || c = '\x0b' || c = '\x0c'

/-- Python `not s.strip()`: `s` is empty or all whitespace. -/
def pyStripIsEmpty (s : String) : Bool :=
  s.data.all pyIsSpace

/-! ### Data model

A manifest canvas, as consumed by `save_manifest`: only the optional
`'@id'` key matters there (`if '@id' in c`). -/

structure Canvas where
  atId : Option String
  deriving Repr, DecidableEq

/-- One entry of the generated `structures` array:
`{"@id": ..., "@type": "sc:Range", "label": ..., "canvases": [...]}`.
The constant `"@type"` field is omitted from the record. -/
structure IIIFRange where
  atId : String
  label : String
  canvases : List String
  deriving Repr, DecidableEq

/-- The manifest document as `save_manifest` touches it: the `'@id'` key,
the `'structures'` key, and all remaining keys kept opaque. -/
structure Manifest where
  atId : Option String
  structures : Option (List IIIFRange)
  other : List (String × String)
  deriving Repr, DecidableEq

/-! ### The range builder (`save_manifest`, lines 322-368 of
`src/app4_koncowe.py`; `save_manifest_with_structure` in `src/app4.py` is
the same logic with renamed locals) -/

/-- `end_page` of the `i`-th range:
`cover_pages[i+1] - 1` when `i + 1 < len(cover_pages)`, else `total_pages`. -/
def endPageOf (coverPages : List Int) (totalPages : Nat) (i : Nat) : Int :=
  if h : i + 1 < coverPages.length then coverPages.get ⟨i + 1, h⟩ - 1
  else (totalPages : Int)

/-- `[c['@id'] for c in self.canvases[start_index:end_index] if '@id' in c]`
with `start_index = start_page - 1`, `end_index = end_page`. -/
def rangeCanvasIds (canvases : List Canvas) (startPage endPage : Int) : List String :=
  (pySlice canvases (startPage - 1) endPage).filterMap (fun c => c.atId)

/-- The `(start_page, end_page)` bounds computed by the loop for each
cover page, before any identifier filtering. -/
def rangeBounds (coverPages : List Int) (totalPages : Nat) : List (Int × Int) :=
  coverPages.enum.map (fun p => (p.2, endPageOf coverPages totalPages p.1))

/-- The `structures` list built by the `for i, start_page in
enumerate(cover_pages)` loop: label `"zakres od strony {start_page}"`,
id `f"{base_id.rstrip('/')}/range/r{i}"`, canvases filtered by `'@id'`
presence, and the entry appended only `if range_canvas_ids`. -/
def buildStructures (baseId : String) (totalPages : Nat) (canvases : List Canvas)
    (coverPages : List Int) : List IIIFRange :=
  coverPages.enum.filterMap (fun p =>
    let ids := rangeCanvasIds canvases p.2 (endPageOf coverPages totalPages p.1)
    if ids.isEmpty then none
    else some
      { atId := pyRstripSlash baseId ++ "/range/r" ++ toString p.1
        label := "zakres od strony " ++ toString p.2
        canvases := ids })

/-- The fallback manifest id used when `'@id'` is missing or blank. -/
def defaultBaseId : String := "http://example.com/manifest"

/-- `base_id = self.manifest.get('@id', 'http://example.com/manifest')`
followed by the blank check that substitutes the default and logs a
warning; the Boolean records whether the warning was logged. -/
def resolveBaseId (m : Manifest) : String × Bool :=
  let b := m.atId.getD defaultBaseId
  if pyStripIsEmpty b then (defaultBaseId, true) else (b, false)

/-- The manifest-rewriting part of `save_manifest`: with no selected
covers, `self.manifest.pop('structures', None)`; otherwise
`self.manifest['structures'] = structures`.  File-dialog and disk I/O
are outside this function. -/
def save_manifest (m : Manifest) (canvases : List Canvas) (totalPages : Nat)
    (coverPages : List Int) : Manifest :=
  if coverPages.isEmpty then { m with structures := none }
  else
    let structures := buildStructures (resolveBaseId m).1 totalPages canvases coverPages
    { m with structures := some structures }

/-! ### The batch analysis loop (`run_analysis`, `src/app4_koncowe.py`
lines 181-225; identical in `src/app4.py`) -/

/-- A canvas as consumed by `run_analysis`: its `label`, its `'@id'` and
the image-service id `canvas['images'][0]['resource']['service']['@id']`
(absent when any link of that chain is missing). -/
structure AnalysisCanvas where
  label : Option String
  atId : Option String
  serviceUrl : Option String
  deriving Repr, DecidableEq

/-- Outcome of the per-page external work: the HTTP fetch of the image
(may raise), then `classify` (returns `{'error': ...}` on failure, else
`is_cover`/`prob`).  Confidence is modelled as a rational. -/
inductive FetchOutcome where
  | fetchError : FetchOutcome
  | classifyError : FetchOutcome
  | ok : Bool → ℚ → FetchOutcome
  deriving Repr, DecidableEq

/-- The `page_data` record appended once per scanned page. -/
structure PageResult where
  idText : String
  pageNum : Nat
  canvasId : Option String
  isCover : Bool
  prob : ℚ
  deriving Repr, DecidableEq

/-- The default `page_data` built at the top of each loop iteration. -/
def initPageData (canvas : AnalysisCanvas) (pageNum : Nat) : PageResult :=
  { idText := "Strona " ++ toString pageNum ++ " (Etykieta: '"
      ++ canvas.label.getD "[Brak]" ++ "')"
    pageNum := pageNum
    canvasId := canvas.atId
    isCover := false
    prob := 0 }

/-- One iteration of the `run_analysis` loop, for the `i`-th enumerated
canvas of the subset: a page with no image service keeps the defaults
(`continue` after appending); a fetch exception or a `classify` error
also keeps the defaults (`page_data.update(result)` runs only when
`'error'` is absent); otherwise the classification is merged in. -/
def analyzePage (oracle : Nat → FetchOutcome) (startPage : Nat)
    (p : Nat × AnalysisCanvas) : PageResult :=
  let pageNum := startPage + p.1
  let pageData := initPageData p.2 pageNum
  match p.2.serviceUrl with
  | none => pageData
  | some _ =>
    match oracle pageNum with
    | .ok b q => { pageData with isCover := b, prob := q }
    | _ => pageData

/-- `run_analysis(start_page, end_page)`: scan
`self.canvases[start_page-1 : end_page]` in order, appending exactly one
record per page.  The external fetch-and-classify work is the oracle,
indexed by page number. -/
def run_analysis (canvases : List AnalysisCanvas) (oracle : Nat → FetchOutcome)
    (startPage endPage : Nat) : List PageResult :=
  (pySlice canvases ((startPage : Int) - 1) (endPage : Int)).enum.map
    (analyzePage oracle startPage)

/-! ### The hybrid OCR/CLIP verdict (`analizuj_manifest`,
`src/ocr_and_clip.py` lines 198-213) -/

/-- The final per-page decision:
`jest_okladka = False; if znaleziono_duzy_tekst: True; elif
jest_okladka_wg_clip: True`. -/
def ostatecznaDecyzja (znalezionoDuzyTekst jestOkladkaWgClip : Bool) : Bool :=
  if znalezionoDuzyTekst then true
  else if jestOkladkaWgClip then true
  else false

/-- The batched variant's collection test
(`src/laion_grupowanie_zdjec.py` line 176):
`if analiza_ocr['znaleziono_duzy_tekst'] or ocena_clip['jest_okladka_wg_clip']`. -/
def decyzjaWsadowa (znalezionoDuzyTekst jestOkladkaWgClip : Bool) : Bool :=
  znalezionoDuzyTekst || jestOkladkaWgClip

/-! ### Concrete scenarios used as test inputs -/

/-- Ten canvases, all bearing identifiers `p1 .. p10`. -/
def scenarioCanvases10 : List Canvas :=
  [⟨some "p1"⟩, ⟨some "p2"⟩, ⟨some "p3"⟩, ⟨some "p4"⟩, ⟨some "p5"⟩,
   ⟨some "p6"⟩, ⟨some "p7"⟩, ⟨some "p8"⟩, ⟨some "p9"⟩, ⟨some "p10"⟩]

/-- Six canvases, identifiers only on pages 3 and 4. -/
def scenarioCanvases6 : List Canvas :=
  [⟨none⟩, ⟨none⟩, ⟨some "p3"⟩, ⟨some "p4"⟩, ⟨none⟩, ⟨none⟩]

/-- Three pages for the batch-scan scenario, all with image services. -/
def scenarioAnalysisCanvases : List AnalysisCanvas :=
  [⟨some "l1", some "c1", some "u1"⟩,
   ⟨some "l2", some "c2", some "u2"⟩,
   ⟨some "l3", some "c3", some "u3"⟩]

/-- An external-world trace in which fetching page 2 fails and the other
pages classify successfully. -/
def scenarioOracle : Nat → FetchOutcome :=
  fun n => if n = 2 then FetchOutcome.fetchError else FetchOutcome.ok true (9 / 10)

/-! ### Helper lemmas -/

theorem pyBound_of_le {n : Nat} {i : Int} (h0 : 0 ≤ i) (hn : i ≤ (n : Int)) :
    pyBound n i = i.toNat := by
  unfold pyBound
  rw [if_neg (by omega)]
  omega

theorem length_pySlice {α : Type} (l : List α) (a b : Int) :
    (pySlice l a b).length = pyBound l.length b - pyBound l.length a := by
  unfold pySlice
  simp only [List.length_drop, List.length_take]
  have hb : pyBound l.length b ≤ l.length := by
    unfold pyBound
    split <;> omega
  omega

theorem pySlice_of_bounds {α : Type} (l : List α) (a b : Int)
    (h0 : 0 ≤ a) (ha : a ≤ (l.length : Int)) (hb0 : 0 ≤ b) (hb : b ≤ (l.length : Int)) :
    pySlice l a b = (l.take b.toNat).drop a.toNat := by
  unfold pySlice
  rw [pyBound_of_le h0 ha, pyBound_of_le hb0 hb]

theorem mem_of_mem_pySlice {α : Type} {l : List α} {a b : Int} {x : α}
    (h : x ∈ pySlice l a b) : x ∈ l := by
  unfold pySlice at h
  exact List.mem_of_mem_take (List.mem_of_mem_drop h)

theorem endPageOf_cons (c : Int) (l : List Int) (t : Nat) (i : Nat) :
    endPageOf (c :: l) t (i + 1) = endPageOf l t i := by
  unfold endPageOf
  by_cases h : i + 1 < l.length
  · rw [dif_pos (by simpa using Nat.succ_lt_succ h), dif_pos h]
    rfl
  · rw [dif_neg (by simp; omega), dif_neg h]

theorem get_rangeBounds (cps : List Int) (t : Nat) (i : Nat)
    (h : i < (rangeBounds cps t).length) :
    (rangeBounds cps t).get ⟨i, h⟩ =
      (cps.get ⟨i, by simpa [rangeBounds] using h⟩, endPageOf cps t i) := by
  unfold rangeBounds at h ⊢
  rw [List.get_map, List.get_enum]
  rfl

theorem length_rangeBounds (cps : List Int) (t : Nat) :
    (rangeBounds cps t).length = cps.length := by
  simp [rangeBounds]

/-- Strict monotonicity of a strictly ascending list, by index. -/
theorem get_lt_get_of_chain {cps : List Int} (hasc : cps.Chain' (· < ·))
    {i j : Nat} (hij : i < j) (hj : j < cps.length) :
    cps.get ⟨i, Nat.lt_trans hij hj⟩ < cps.get ⟨j, hj⟩ := by
  have hp : cps.Pairwise (· < ·) := List.chain'_iff_pairwise.mp hasc
  exact List.pairwise_iff_get.mp hp ⟨i, Nat.lt_trans hij hj⟩ ⟨j, hj⟩ hij

theorem get_le_get_of_chain {cps : List Int} (hasc : cps.Chain' (· < ·))
    {i j : Nat} (hij : i ≤ j) (hj : j < cps.length) :
    cps.get ⟨i, Nat.lt_of_le_of_lt hij hj⟩ ≤ cps.get ⟨j, hj⟩ := by
  rcases Nat.lt_or_ge i j with h | h
  · exact le_of_lt (get_lt_get_of_chain hasc h hj)
  · have : i = j := Nat.le_antisymm hij h
    subst this
    exact le_refl _

/-- The start page of a range never exceeds its end page. -/
theorem start_le_endPageOf {cps : List Int} {t : Nat}
    (hasc : cps.Chain' (· < ·)) (hbnd : ∀ c ∈ cps, 1 ≤ c ∧ c ≤ (t : Int))
    {i : Nat} (h : i < cps.length) :
    cps.get ⟨i, h⟩ ≤ endPageOf cps t i := by
  unfold endPageOf
  by_cases hi : i + 1 < cps.length
  · rw [dif_pos hi]
    have := get_lt_get_of_chain hasc (by omega : i < i + 1) hi
    omega
  · rw [dif_neg hi]
    exact (hbnd _ (cps.get_mem i h)).2

/-- The end page of a range never exceeds `total_pages`. -/
theorem endPageOf_le {cps : List Int} {t : Nat}
    (hbnd : ∀ c ∈ cps, 1 ≤ c ∧ c ≤ (t : Int))
    (i : Nat) : endPageOf cps t i ≤ (t : Int) := by
  unfold endPageOf
  by_cases hi : i + 1 < cps.length
  · rw [dif_pos hi]
    have := (hbnd _ (cps.get_mem (i + 1) hi)).2
    omega
  · rw [dif_neg hi]

/-- Every page ordinal between the first cover page and `total_pages`
falls inside some computed range. -/
theorem exists_range_containing (t : Nat) (p : Int) :
    ∀ (c : Int) (rest : List Int), (c :: rest).Chain' (· < ·) →
      (∀ x ∈ c :: rest, x ≤ (t : Int)) → c ≤ p → p ≤ (t : Int) →
      ∃ i, ∃ h : i < (c :: rest).length,
        (c :: rest).get ⟨i, h⟩ ≤ p ∧ p ≤ endPageOf (c :: rest) t i := by
  intro c rest
  induction rest generalizing c with
  | nil =>
    intro _ _ hcp hpt
    refine ⟨0, by simp, hcp, ?_⟩
    unfold endPageOf
    rw [dif_neg (by simp)]
    exact hpt
  | cons c' rest' ih =>
    intro hasc hbd hcp hpt
    rcases lt_or_le p c' with hlt | hle
    · refine ⟨0, by simp, hcp, ?_⟩
      unfold endPageOf
      rw [dif_pos (by simp)]
      have : (c :: c' :: rest').get ⟨1, by simp⟩ = c' := rfl
      rw [this]
      omega
    · obtain ⟨i, hi, h1, h2⟩ :=
        ih c' hasc.tail (fun x hx => hbd x (List.mem_cons_of_mem c hx)) hle hpt
      refine ⟨i + 1, by simpa using Nat.succ_lt_succ hi, ?_, ?_⟩
      · simpa using h1
      · rw [endPageOf_cons]
        exact h2

/-- Membership characterization of the generated `structures` list: an
entry is produced for exactly the cover positions whose filtered canvas
list is non-empty, with label, id and canvases determined by that
position alone. -/
theorem mem_buildStructures_iff (baseId : String) (t : Nat) (cv : List Canvas)
    (cps : List Int) (r : IIIFRange) :
    r ∈ buildStructures baseId t cv cps ↔
      ∃ i, ∃ h : i < cps.length,
        rangeCanvasIds cv (cps.get ⟨i, h⟩) (endPageOf cps t i) ≠ [] ∧
        r = { atId := pyRstripSlash baseId ++ "/range/r" ++ toString i
              label := "zakres od strony " ++ toString (cps.get ⟨i, h⟩)
              canvases := rangeCanvasIds cv (cps.get ⟨i, h⟩) (endPageOf cps t i) } := by
  unfold buildStructures
  rw [List.mem_filterMap]
  constructor
  · rintro ⟨⟨i, c⟩, hmem, hf⟩
    rw [List.mk_mem_enum_iff_getElem?] at hmem
    have hi : i < cps.length := (List.getElem?_eq_some.mp hmem).1
    have hc : cps.get ⟨i, hi⟩ = c := by
      have := (List.getElem?_eq_some.mp hmem).2
      simpa using this
    refine ⟨i, hi, ?_, ?_⟩
    · intro hnil
      simp only at hf
      rw [hc] at hnil
      rw [hnil] at hf
      simp at hf
    · simp only at hf
      rw [hc]
      by_cases hids : (rangeCanvasIds cv c (endPageOf cps t i)).isEmpty
      · rw [if_pos hids] at hf
        exact absurd hf (by simp)
      · rw [if_neg hids] at hf
        exact (Option.some.injEq _ _ ▸ hf).symm
  · rintro ⟨i, hi, hne, hr⟩
    refine ⟨(i, cps.get ⟨i, hi⟩), ?_, ?_⟩
    · rw [List.mk_mem_enum_iff_getElem?]
      simp
    · simp only
      rw [if_neg (by simpa using hne)]
      rw [hr]

/-- Under the caller contract, a range whose pages all carry identifiers
has a non-empty filtered canvas list. -/
theorem rangeCanvasIds_ne_nil {cv : List Canvas} {s e : Int}
    (hids : ∀ c ∈ cv, c.atId.isSome)
    (hs : 1 ≤ s) (hse : s ≤ e) (he : e ≤ (cv.length : Int)) :
    rangeCanvasIds cv s e ≠ [] := by
  intro hnil
  unfold rangeCanvasIds at hnil
  have hlen : (pySlice cv (s - 1) e).length = e.toNat - (s - 1).toNat := by
    rw [length_pySlice, pyBound_of_le (by omega) he, pyBound_of_le (by omega) (by omega)]
  have hpos : 0 < (pySlice cv (s - 1) e).length := by omega
  obtain ⟨x, hx⟩ := List.exists_mem_of_length_pos hpos
  have hxcv : x ∈ cv := mem_of_mem_pySlice hx
  have hnone : x.atId = none := List.filterMap_eq_nil.mp hnil x hx
  have hsome := hids x hxcv
  rw [hnone] at hsome
  simp at hsome

/-- When no range filters down to the empty list, the loop keeps exactly
one entry per cover page, in order. -/
theorem buildStructures_eq_map (baseId : String) (t : Nat) (cv : List Canvas)
    (cps : List Int)
    (h : ∀ i (hi : i < cps.length),
      rangeCanvasIds cv (cps.get ⟨i, hi⟩) (endPageOf cps t i) ≠ []) :
    buildStructures baseId t cv cps = cps.enum.map (fun p =>
      { atId := pyRstripSlash baseId ++ "/range/r" ++ toString p.1
        label := "zakres od strony " ++ toString p.2
        canvases := rangeCanvasIds cv p.2 (endPageOf cps t p.1) }) := by
  unfold buildStructures
  rw [List.filterMap_eq_map_iff_forall_eq_some]
  rintro ⟨i, c⟩ hmem
  rw [List.mk_mem_enum_iff_getElem?] at hmem
  have hi : i < cps.length := (List.getElem?_eq_some.mp hmem).1
  have hc : cps.get ⟨i, hi⟩ = c := by
    have := (List.getElem?_eq_some.mp hmem).2
    simpa using this
  have hne := h i hi
  rw [hc] at hne
  simp only
  rw [if_neg (by simpa using hne)]

/-- The head of `dropWhile p` never satisfies `p`. -/
theorem head?_dropWhile_not {α : Type} (p : α → Bool) (l : List α) {a : α}
    (h : (l.dropWhile p).head? = some a) : p a = false := by
  induction l with
  | nil => simp at h
  | cons x xs ih =>
    rw [List.dropWhile_cons] at h
    by_cases hp : p x
    · rw [if_pos hp] at h
      exact ih h
    · rw [if_neg hp] at h
      simp only [List.head?_cons, Option.some.injEq] at h
      rw [← h]
      simpa using hp

/-! ### The claims -/

/-- C4: in the hybrid variant the final per-page verdict is cover
whenever the OCR large-text signal is positive, irrespective of the
visual classifier; with OCR negative (inconclusive) a visual-positive
page still counts as cover; with both negative it does not.  The batched
variant's collection test agrees with the sequential decision. -/
theorem claim_C4 :
    (∀ clip, ostatecznaDecyzja true clip = true) ∧
    ostatecznaDecyzja false true = true ∧
    ostatecznaDecyzja false false = false ∧
    (∀ ocr clip, decyzjaWsadowa ocr clip = ostatecznaDecyzja ocr clip) := by
  refine ⟨?_, rfl, rfl, ?_⟩
  · intro clip
    rfl
  · intro ocr clip
    cases ocr <;> cases clip <;> rfl

/-- C7: saving rewrites only the `structures` key: `@id` and every other
key are untouched; a non-empty cover set replaces `structures` with the
generated list, an empty cover set removes the key (never writing an
empty array). -/
theorem claim_C7 (m : Manifest) (cv : List Canvas) (t : Nat) (cps : List Int) :
    (save_manifest m cv t cps).atId = m.atId ∧
    (save_manifest m cv t cps).other = m.other ∧
    (save_manifest m cv t cps).structures =
      (if cps.isEmpty then none
       else some (buildStructures (resolveBaseId m).1 t cv cps)) := by
  unfold save_manifest
  by_cases h : cps.isEmpty <;> simp [h]

/-- C3 (amended): the range-building step never throws on empty input —
it clears the `structures` key — and it never signals an error on any
input: the code contains no contract check, so an out-of-range or
non-ascending `cover_pages` list silently produces output instead of
being rejected. -/
theorem claim_C3 (m : Manifest) (cv : List Canvas) (t : Nat) :
    save_manifest m cv t [] = { m with structures := none } ∧
    ∀ cps : List Int, cps ≠ [] →
      ∃ s, (save_manifest m cv t cps).structures = some s := by
  constructor
  · simp [save_manifest]
  · intro cps hne
    unfold save_manifest
    rw [if_neg (by simpa using hne)]
    exact ⟨_, rfl⟩

/-- C3 counterexample: `cover_pages = [5]` with `total_pages = 2`
violates the claimed contract (5 is outside `[1, 2]`), yet the step is
not rejected: it silently rewrites the manifest, here even writing an
empty `structures` array. -/
theorem claim_C3_counterexample :
    (¬ ∀ c ∈ ([5] : List Int), 1 ≤ c ∧ c ≤ (2 : Int)) ∧
    save_manifest ⟨some "b", some [⟨"old", "old", ["x"]⟩], [("k", "v")]⟩
        [⟨some "p1"⟩, ⟨some "p2"⟩] 2 [5]
      = ⟨some "b", some [], [("k", "v")]⟩ := by
  exact ⟨by decide, by decide⟩

/-- C1 (amended): for every strictly ascending cover list inside
`[1, total_pages]`, provided every page bears an identifier, the
structures step produces exactly one range per cover page, in the same
order: the `i`-th output range is labelled with cover page `c_i` and its
canvases are the identifiers of pages `c_i .. end_i`, where `end_i` is
`c_(i+1) - 1` when a next cover exists and `total_pages` otherwise
(the definition of `endPageOf`). -/
theorem claim_C1 (baseId : String) (t : Nat) (cv : List Canvas) (cps : List Int)
    (hlen : cv.length = t)
    (hasc : cps.Chain' (· < ·))
    (hbnd : ∀ c ∈ cps, 1 ≤ c ∧ c ≤ (t : Int))
    (hids : ∀ c ∈ cv, c.atId.isSome) :
    (buildStructures baseId t cv cps).length = cps.length ∧
    ∀ i (h : i < cps.length), ∃ h2 : i < (buildStructures baseId t cv cps).length,
      (buildStructures baseId t cv cps).get ⟨i, h2⟩ =
        { atId := pyRstripSlash baseId ++ "/range/r" ++ toString i
          label := "zakres od strony " ++ toString (cps.get ⟨i, h⟩)
          canvases := rangeCanvasIds cv (cps.get ⟨i, h⟩) (endPageOf cps t i) } := by
  have hne : ∀ i (hi : i < cps.length),
      rangeCanvasIds cv (cps.get ⟨i, hi⟩) (endPageOf cps t i) ≠ [] := by
    intro i hi
    exact rangeCanvasIds_ne_nil hids (hbnd _ (cps.get_mem i hi)).1
      (start_le_endPageOf hasc hbnd hi) (by rw [hlen]; exact endPageOf_le hbnd i)
  rw [buildStructures_eq_map baseId t cv cps hne]
  constructor
  · simp
  · intro i h
    refine ⟨by simpa using h, ?_⟩
    rw [List.get_map, List.get_enum]
    rfl

/-- C1 counterexample: with `total_pages = 2` and the strictly ascending
in-range cover list `[1, 2]`, where page 1 lacks an identifier, the step
produces a single range instead of one per cover page: the claim as
stated (with arbitrary identifiers) fails. -/
theorem claim_C1_counterexample :
    List.Chain' (· < ·) ([1, 2] : List Int) ∧
    (∀ c ∈ ([1, 2] : List Int), 1 ≤ c ∧ c ≤ (2 : Int)) ∧
    (buildStructures "b" 2 [⟨none⟩, ⟨some "p2"⟩] [1, 2]).length ≠
      ([1, 2] : List Int).length := by
  exact ⟨by norm_num [List.chain'_cons], by decide, by decide⟩

/-- C1 witness: the spec scenario `total_pages = 10`,
`cover_pages = [1, 5, 8]`, all pages identified. -/
theorem claim_C1_witness :
    (scenarioCanvases10.length = 10 ∧
     List.Chain' (· < ·) ([1, 5, 8] : List Int) ∧
     (∀ c ∈ ([1, 5, 8] : List Int), 1 ≤ c ∧ c ≤ (10 : Int)) ∧
     (∀ c ∈ scenarioCanvases10, c.atId.isSome)) ∧
    (buildStructures "http://example.com/manifest" 10 scenarioCanvases10 [1, 5, 8]).length
      = ([1, 5, 8] : List Int).length := by
  refine ⟨⟨by decide, by norm_num [List.chain'_cons], by decide, by decide⟩, ?_⟩
  exact (claim_C1 "http://example.com/manifest" 10 scenarioCanvases10 [1, 5, 8]
    (by decide) (by norm_num [List.chain'_cons]) (by decide) (by decide)).1

/-- C10: under the caller contract every computed range satisfies
`start ≤ end`: no empty or inverted interval is produced. -/
theorem claim_C10 (cps : List Int) (t : Nat)
    (hasc : cps.Chain' (· < ·))
    (hbnd : ∀ c ∈ cps, 1 ≤ c ∧ c ≤ (t : Int)) :
    ∀ i (h : i < (rangeBounds cps t).length),
      ((rangeBounds cps t).get ⟨i, h⟩).1 ≤ ((rangeBounds cps t).get ⟨i, h⟩).2 := by
  intro i h
  rw [get_rangeBounds]
  exact start_le_endPageOf hasc hbnd _

/-- C10 witness: adjacent covers and a final cover equal to
`total_pages` give one-page ranges, never inverted ones. -/
theorem claim_C10_witness :
    (List.Chain' (· < ·) ([1, 2, 3] : List Int) ∧
     (∀ c ∈ ([1, 2, 3] : List Int), 1 ≤ c ∧ c ≤ (3 : Int))) ∧
    ∀ i (h : i < (rangeBounds [1, 2, 3] 3).length),
      ((rangeBounds [1, 2, 3] 3).get ⟨i, h⟩).1 ≤ ((rangeBounds [1, 2, 3] 3).get ⟨i, h⟩).2 := by
  exact ⟨⟨by norm_num [List.chain'_cons], by decide⟩,
    claim_C10 [1, 2, 3] 3 (by norm_num [List.chain'_cons]) (by decide)⟩

/-- C2: for every non-empty strictly ascending cover list inside
`[1, total_pages]`, the `[start, end]` intervals computed by the loop
(before identifier filtering) are contiguous, pairwise disjoint, and
their union is exactly the integer interval
`[cover_pages[0], total_pages]`; pages before the first cover page lie
in no range. -/
theorem claim_C2 (cps : List Int) (t : Nat) (hne : cps ≠ [])
    (hasc : cps.Chain' (· < ·))
    (hbnd : ∀ c ∈ cps, 1 ≤ c ∧ c ≤ (t : Int)) :
    (rangeBounds cps t).length = cps.length ∧
    (∀ i (h : i + 1 < (rangeBounds cps t).length),
       ((rangeBounds cps t).get ⟨i, by omega⟩).2 + 1 =
         ((rangeBounds cps t).get ⟨i + 1, h⟩).1) ∧
    (∀ i j (hi : i < (rangeBounds cps t).length) (hj : j < (rangeBounds cps t).length),
       i < j →
         ((rangeBounds cps t).get ⟨i, hi⟩).2 < ((rangeBounds cps t).get ⟨j, hj⟩).1) ∧
    (∀ p : Int,
       (∃ i, ∃ h : i < (rangeBounds cps t).length,
          ((rangeBounds cps t).get ⟨i, h⟩).1 ≤ p ∧
          p ≤ ((rangeBounds cps t).get ⟨i, h⟩).2) ↔
       (cps.head hne ≤ p ∧ p ≤ (t : Int))) := by
  have hlen := length_rangeBounds cps t
  refine ⟨hlen, ?_, ?_, ?_⟩
  · intro i h
    rw [get_rangeBounds, get_rangeBounds]
    simp only
    have hi1 : i + 1 < cps.length := by omega
    unfold endPageOf
    rw [dif_pos hi1]
    exact Int.sub_add_cancel _ _
  · intro i j hi hj hij
    rw [get_rangeBounds, get_rangeBounds]
    simp only
    have hj' : j < cps.length := by omega
    have hij1 : i + 1 ≤ j := hij
    have hle := get_le_get_of_chain hasc hij1 hj'
    unfold endPageOf
    rw [dif_pos (by omega)]
    omega
  · intro p
    constructor
    · rintro ⟨i, h, h1, h2⟩
      rw [get_rangeBounds] at h1 h2
      simp only at h1 h2
      have hi' : i < cps.length := by omega
      have hhead : cps.head hne = cps.get ⟨0, by omega⟩ := by
        cases cps with
        | nil => exact absurd rfl hne
        | cons a l => rfl
      constructor
      · rw [hhead]
        exact le_trans (get_le_get_of_chain hasc (Nat.zero_le i) hi') h1
      · exact le_trans h2 (endPageOf_le hbnd i)
    · rintro ⟨hp1, hp2⟩
      cases cps with
      | nil => exact absurd rfl hne
      | cons c rest =>
        obtain ⟨i, h, h1, h2⟩ :=
          exists_range_containing t p c rest hasc
            (fun x hx => (hbnd x hx).2) hp1 hp2
        refine ⟨i, by rw [length_rangeBounds]; exact h, ?_⟩
        rw [get_rangeBounds]
        exact ⟨h1, h2⟩

/-- C2 witness: the scenario `total_pages = 10`,
`cover_pages = [1, 5, 8]` tiles `[1, 10]` by `[1,4],[5,7],[8,10]`. -/
theorem claim_C2_witness :
    (([1, 5, 8] : List Int) ≠ [] ∧
     List.Chain' (· < ·) ([1, 5, 8] : List Int) ∧
     (∀ c ∈ ([1, 5, 8] : List Int), 1 ≤ c ∧ c ≤ (10 : Int))) ∧
    (rangeBounds [1, 5, 8] 10).length = ([1, 5, 8] : List Int).length := by
  refine ⟨⟨by decide, by norm_num [List.chain'_cons], by decide⟩, ?_⟩
  exact (claim_C2 [1, 5, 8] 10 (by decide) (by norm_num [List.chain'_cons]) (by decide)).1

/-- C5: a range appears in the output exactly when its filtered
identifier list is non-empty — an all-unidentified range is omitted
entirely — and every produced entry is fully determined by its position
`i` in `cover_pages` (its generated id embeds that `i`, so ids may be
non-contiguous after an omission) together with bounds computed from
`cover_pages` and `total_pages` alone, so no other range's boundaries
shift when a range is omitted. -/
theorem claim_C5 (baseId : String) (t : Nat) (cv : List Canvas)
    (cps : List Int) (r : IIIFRange) :
    r ∈ buildStructures baseId t cv cps ↔
      ∃ i, ∃ h : i < cps.length,
        rangeCanvasIds cv (cps.get ⟨i, h⟩) (endPageOf cps t i) ≠ [] ∧
        r = { atId := pyRstripSlash baseId ++ "/range/r" ++ toString i
              label := "zakres od strony " ++ toString (cps.get ⟨i, h⟩)
              canvases := rangeCanvasIds cv (cps.get ⟨i, h⟩) (endPageOf cps t i) } :=
  mem_buildStructures_iff baseId t cv cps r

/-- C5 witness: covers `[1, 2]` of a two-page document whose first page
lacks an identifier: the surviving range keeps the generated index 1
(id `b/range/r1`), its bounds unshifted. -/
theorem claim_C5_witness :
    (⟨"b/range/r1", "zakres od strony 2", ["p2"]⟩ : IIIFRange) ∈
      buildStructures "b" 2 [⟨none⟩, ⟨some "p2"⟩] [1, 2] :=
  (claim_C5 "b" 2 [⟨none⟩, ⟨some "p2"⟩] [1, 2] _).mpr
    ⟨1, by decide, by decide, by decide⟩

/-- C6: every generated range's canvases list is obtained from the pages
`start .. end` (1-based, inclusive — `take end` then `drop (start-1)`),
keeping exactly the pages that carry an external identifier; missing
identifiers drop pages from the list without affecting the bounds. -/
theorem claim_C6 (baseId : String) (t : Nat) (cv : List Canvas) (cps : List Int)
    (hlen : cv.length = t)
    (hasc : cps.Chain' (· < ·))
    (hbnd : ∀ c ∈ cps, 1 ≤ c ∧ c ≤ (t : Int)) :
    ∀ r ∈ buildStructures baseId t cv cps,
      ∃ i, ∃ h : i < cps.length,
        r.canvases =
          ((cv.take (endPageOf cps t i).toNat).drop ((cps.get ⟨i, h⟩).toNat - 1)).filterMap
            (fun c => c.atId) := by
  intro r hr
  obtain ⟨i, h, hne2, hr_eq⟩ := (mem_buildStructures_iff baseId t cv cps r).mp hr
  refine ⟨i, h, ?_⟩
  rw [hr_eq]
  simp only
  set s := cps.get ⟨i, h⟩ with hs
  have hs1 : 1 ≤ s := (hbnd _ (cps.get_mem i h)).1
  have hse : s ≤ endPageOf cps t i := start_le_endPageOf hasc hbnd h
  have he : endPageOf cps t i ≤ (cv.length : Int) := by
    rw [hlen]
    exact endPageOf_le hbnd i
  unfold rangeCanvasIds
  rw [pySlice_of_bounds cv (s - 1) (endPageOf cps t i)
    (by omega) (by omega) (by omega) he]
  have : (s - 1).toNat = s.toNat - 1 := by omega
  rw [this]

/-- C6 witness: the spec scenario `total_pages = 6`, `cover_pages = [3]`,
identifiers only on pages 3 and 4: the single range keeps `[p3, p4]`. -/
theorem claim_C6_witness :
    (scenarioCanvases6.length = 6 ∧
     List.Chain' (· < ·) ([3] : List Int) ∧
     (∀ c ∈ ([3] : List Int), 1 ≤ c ∧ c ≤ (6 : Int)) ∧
     (⟨"b/range/r0", "zakres od strony 3", ["p3", "p4"]⟩ : IIIFRange) ∈
       buildStructures "b" 6 scenarioCanvases6 [3]) ∧
    ∃ i, ∃ h : i < ([3] : List Int).length,
      (⟨"b/range/r0", "zakres od strony 3", ["p3", "p4"]⟩ : IIIFRange).canvases =
        ((scenarioCanvases6.take (endPageOf [3] 6 i).toNat).drop
          ((([3] : List Int).get ⟨i, h⟩).toNat - 1)).filterMap (fun c => c.atId) := by
  refine ⟨⟨by decide, by norm_num [List.chain'_cons], by decide, by decide⟩, ?_⟩
  exact claim_C6 "b" 6 scenarioCanvases6 [3] (by decide)
    (by norm_num [List.chain'_cons]) (by decide) _ (by decide)

/-- C8: each generated label deterministically embeds the range's start
page; each generated id is the caller's base id with trailing slashes
stripped, joined by a single `/` to `range/r{i}` (the stripped base never
ends in `/`, so no duplicate separator arises); a missing, empty or
blank manifest `@id` is replaced by the fixed default and flagged with a
warning.  All outputs are pure functions of the inputs. -/
theorem claim_C8 (m : Manifest) (t : Nat) (cv : List Canvas) (cps : List Int) :
    (∀ r ∈ buildStructures (resolveBaseId m).1 t cv cps,
       ∃ i, ∃ h : i < cps.length,
         r.label = "zakres od strony " ++ toString (cps.get ⟨i, h⟩) ∧
         r.atId = pyRstripSlash (resolveBaseId m).1 ++ "/range/r" ++ toString i) ∧
    (∀ s : String, (pyRstripSlash s).data.getLast? ≠ some '/') ∧
    resolveBaseId m =
      (if pyStripIsEmpty (m.atId.getD defaultBaseId) then defaultBaseId
       else m.atId.getD defaultBaseId,
       pyStripIsEmpty (m.atId.getD defaultBaseId)) := by
  refine ⟨?_, ?_, ?_⟩
  · intro r hr
    obtain ⟨i, h, _, hr_eq⟩ :=
      (mem_buildStructures_iff (resolveBaseId m).1 t cv cps r).mp hr
    exact ⟨i, h, by rw [hr_eq], by rw [hr_eq]⟩
  · intro s hcon
    unfold pyRstripSlash at hcon
    rw [show (⟨(s.data.reverse.dropWhile (fun c => c = '/')).reverse⟩ : String).data
        = (s.data.reverse.dropWhile (fun c => c = '/')).reverse from rfl] at hcon
    rw [List.getLast?_reverse] at hcon
    have := head?_dropWhile_not (fun c => c = '/') s.data.reverse hcon
    simp at this
  · unfold resolveBaseId
    by_cases h : pyStripIsEmpty (m.atId.getD defaultBaseId) <;> simp [h]

/-- C8 witness: a blank `@id` is replaced by the default with a warning,
and stripping `"http://x///"` leaves no trailing slash. -/
theorem claim_C8_witness :
    resolveBaseId ⟨some "   ", none, []⟩ = (defaultBaseId, true) ∧
    (pyRstripSlash "http://x///").data.getLast? ≠ some '/' := by
  have h := claim_C8 ⟨some "   ", none, []⟩ 0 [] []
  exact ⟨by rw [h.2.2]; decide, h.2.1 "http://x///"⟩

/-- Every branch of the loop body records the page's own number. -/
theorem analyzePage_pageNum (oracle : Nat → FetchOutcome) (s : Nat)
    (p : Nat × AnalysisCanvas) : (analyzePage oracle s p).pageNum = s + p.1 := by
  simp only [analyzePage]
  cases p.2.serviceUrl with
  | none => rfl
  | some u =>
    cases oracle (s + p.1) with
    | ok b q => rfl
    | fetchError => rfl
    | classifyError => rfl

/-- A page whose external work does not succeed keeps the neutral
default verdict. -/
theorem analyzePage_default (oracle : Nat → FetchOutcome) (s : Nat)
    (p : Nat × AnalysisCanvas)
    (hfail : ∀ b q, oracle (s + p.1) ≠ FetchOutcome.ok b q) :
    (analyzePage oracle s p).isCover = false ∧ (analyzePage oracle s p).prob = 0 := by
  simp only [analyzePage]
  cases p.2.serviceUrl with
  | none => exact ⟨rfl, rfl⟩
  | some u =>
    cases hoc : oracle (s + p.1) with
    | ok b q => exact absurd hoc (hfail b q)
    | fetchError => exact ⟨rfl, rfl⟩
    | classifyError => exact ⟨rfl, rfl⟩

/-- C9: a batch over `[start_page, end_page]` (within bounds) produces
exactly one record per page, in ascending page order, and any page whose
fetch or classification does not succeed is isolated: its record carries
the neutral default (`is_cover = false`, confidence `0`), while the rest
of the batch is unaffected. -/
theorem claim_C9 (cv : List AnalysisCanvas) (oracle : Nat → FetchOutcome)
    (s e : Nat) (hs : 1 ≤ s) (hse : s ≤ e) (he : e ≤ cv.length) :
    (run_analysis cv oracle s e).length = e - s + 1 ∧
    (∀ i (h : i < (run_analysis cv oracle s e).length),
       ((run_analysis cv oracle s e).get ⟨i, h⟩).pageNum = s + i) ∧
    (∀ i (h : i < (run_analysis cv oracle s e).length),
       (∀ b q, oracle (s + i) ≠ FetchOutcome.ok b q) →
         ((run_analysis cv oracle s e).get ⟨i, h⟩).isCover = false ∧
         ((run_analysis cv oracle s e).get ⟨i, h⟩).prob = 0) := by
  have hsub : (pySlice cv ((s : Int) - 1) (e : Int)).length = e - s + 1 := by
    rw [length_pySlice,
      pyBound_of_le (by omega) (by exact_mod_cast he),
      pyBound_of_le (by omega) (by omega)]
    omega
  refine ⟨?_, ?_, ?_⟩
  · unfold run_analysis
    simpa using hsub
  · intro i h
    unfold run_analysis at h ⊢
    rw [List.get_map, List.get_enum]
    exact analyzePage_pageNum oracle s _
  · intro i h hfail
    unfold run_analysis at h ⊢
    rw [List.get_map, List.get_enum]
    exact analyzePage_default oracle s _ hfail

/-- C9 witness: pages 1-3 scanned while fetching page 2 fails: three
records still appear, and page 2's record is the neutral default. -/
theorem claim_C9_witness :
    ((1 : Nat) ≤ 1 ∧ (1 : Nat) ≤ 3 ∧ (3 : Nat) ≤ scenarioAnalysisCanvases.length) ∧
    (run_analysis scenarioAnalysisCanvases scenarioOracle 1 3).length = 3 - 1 + 1 := by
  refine ⟨⟨by decide, by decide, by decide⟩, ?_⟩
  exact (claim_C9 scenarioAnalysisCanvases scenarioOracle 1 3
    (by decide) (by decide) (by decide)).1

/-- C3 witness: an empty selection clears a pre-existing `structures`
key, and a non-empty selection always yields a `structures` value. -/
theorem claim_C3_witness :
    save_manifest ⟨some "b", some [], [("k", "v")]⟩ [] 0 []
      = ⟨some "b", none, [("k", "v")]⟩ ∧
    ∃ s, (save_manifest ⟨some "b", none, []⟩ [⟨some "p1"⟩] 1 [1]).structures = some s := by
  have h := claim_C3 ⟨some "b", some [], [("k", "v")]⟩ [] 0
  have h2 := claim_C3 ⟨some "b", none, []⟩ [⟨some "p1"⟩] 1
  exact ⟨h.1, h2.2 [1] (by decide)⟩

/-- C4 witness: OCR-positive overrides a negative visual verdict, and
the batched collection test agrees with the sequential decision. -/
theorem claim_C4_witness :
    ostatecznaDecyzja true false = true ∧
    decyzjaWsadowa false true = ostatecznaDecyzja false true :=
  ⟨claim_C4.1 false, claim_C4.2.2.2 false true⟩

/-- C7 witness: saving with an empty cover set removes the pre-existing
`structures` key and leaves the other keys alone. -/
theorem claim_C7_witness :
    (save_manifest ⟨some "b", some [], [("x", "y")]⟩ [⟨some "p1"⟩] 1 []).structures = none ∧
    (save_manifest ⟨some "b", some [], [("x", "y")]⟩ [⟨some "p1"⟩] 1 []).other = [("x", "y")] := by
  have h := claim_C7 ⟨some "b", some [], [("x", "y")]⟩ [⟨some "p1"⟩] 1 []
  exact ⟨by rw [h.2.2]; rfl, h.2.1⟩

end Proba2
